import Mathlib

/-!
# DMARC report pipeline — verification development

A shallow embedding of the DMARC report-processing pipeline: the SQLite data
model and client operations (`schema.ts`, `client.ts`), the XML report parser
(`dmarc-parser.ts`), the email fetcher (`email-fetcher.ts`), the Claude
analyzer (`claude-analyzer.ts`), the notification service (`notification.ts`)
and the scheduler (`scheduler.ts`).

Modelling conventions:
* The SQLite store is a record of lists; `INSERT` appends at the end and
  returns the auto-increment rowid, `SELECT ... WHERE` is `List.find?` /
  `List.filter` in insertion order, matching SQLite table-scan order.
* JSON serialization of structured columns (`policy_published`,
  `threats_detected`, `recommendations`, ...) is modelled as the identity:
  the structured value itself is stored.
* External collaborators (the XML parser library, gzip/zip decompression,
  the Anthropic API, the Postal send API) are parameters: a function value
  describing what each collaborator returns, with `Option`/`Except`
  capturing a thrown exception.
* JavaScript `undefined`/absent object fields become `Option`; the
  JavaScript `x || null` coercion (which also maps the empty string to
  `null`) is `jsOrNull`.
-/

/-! ## Data model (src/lib/db/schema.ts) -/

/-- The `policy_published` XML block (interface `DmarcXmlFeedback`). -/
structure DmarcPolicy where
  domain : String
  adkim : Option String
  aspf : Option String
  p : String
  sp : Option String
  pct : Option Nat
deriving Repr, DecidableEq

/-- Insertable columns of `dmarc_reports` (argument of `insertDmarcReport`). -/
structure DmarcReportData where
  report_id : String
  org_name : String
  email : String
  date_begin : Nat
  date_end : Nat
  domain : String
  policy_published : DmarcPolicy
  raw_xml : String
deriving Repr, DecidableEq

/-- A row of `dmarc_reports`; `processed` is the SQLite 0/1 flag as a `Bool`. -/
structure DmarcReport extends DmarcReportData where
  id : Nat
  processed : Bool
deriving Repr, DecidableEq

/-- Insertable columns of `dmarc_records` (argument of `insertDmarcRecord`). -/
structure DmarcRecordData where
  report_id : Nat
  source_ip : String
  count : Nat
  disposition : String
  dkim : String
  spf : String
  header_from : String
  envelope_from : Option String
  dkim_domain : Option String
  dkim_selector : Option String
  spf_domain : Option String
  country : Option String
deriving Repr, DecidableEq

/-- A row of `dmarc_records`. -/
structure DmarcRecord extends DmarcRecordData where
  id : Nat
deriving Repr, DecidableEq

/-- A threat finding (interface `Threat` in types/analysis.ts). -/
structure Threat where
  type : String
  severity : String
  description : String
  source_ips : List String
  evidence : String
deriving Repr, DecidableEq

/-- Insertable columns of `ai_analysis` (argument of `insertAiAnalysis`).
`threats_detected`, `trends` and `recommendations` are JSON-string columns;
the trends payload is kept as its serialized text since the pipeline never
computes with it. -/
structure AiAnalysisData where
  report_id : Nat
  compliance_status : String
  compliance_score : Int
  threats_detected : List Threat
  threat_level : String
  trends : String
  recommendations : List String
  summary : String
  model_version : String
deriving Repr, DecidableEq

/-- A row of `ai_analysis`. -/
structure AiAnalysis extends AiAnalysisData where
  id : Nat
deriving Repr, DecidableEq

/-- Insertable columns of `notifications` (argument of `insertNotification`). -/
structure NotificationData where
  analysis_id : Nat
  threat_level : String
  postal_message_id : Option String
  status : String
  error_message : Option String
deriving Repr, DecidableEq

/-- A row of `notifications`. -/
structure Notification extends NotificationData where
  id : Nat
deriving Repr, DecidableEq

/-- Insertable columns of `processing_log` (argument of `insertProcessingLog`). -/
structure ProcessingLogData where
  email_uid : String
  subject : String
  from_address : String
  attachment_count : Nat
  status : String
  error_message : Option String
deriving Repr, DecidableEq

/-- A row of `processing_log`. -/
structure ProcessingLog extends ProcessingLogData where
  id : Nat
deriving Repr, DecidableEq

/-- The SQLite database: one list per table, in insertion order, plus the
next auto-increment rowid of each table. -/
structure DB where
  reports : List DmarcReport
  records : List DmarcRecord
  analyses : List AiAnalysis
  notifications : List Notification
  logs : List ProcessingLog
  nextReportId : Nat
  nextRecordId : Nat
  nextAnalysisId : Nat
  nextNotificationId : Nat
  nextLogId : Nat
deriving Repr, DecidableEq

/-- A fresh database (rowids start at 1, as in SQLite). -/
def DB.empty : DB := ⟨[], [], [], [], [], 1, 1, 1, 1, 1⟩

/-! ## Database client operations (src/lib/db/client.ts) -/

/-- `insertDmarcReport`: INSERT INTO dmarc_reports, returns lastInsertRowid;
`processed` defaults to 0. -/
def insertDmarcReport (db : DB) (d : DmarcReportData) : DB × Nat :=
  let rid := db.nextReportId
  ({ db with
      reports := db.reports ++ [{ toDmarcReportData := d, id := rid, processed := false }]
      nextReportId := rid + 1 }, rid)

/-- `getDmarcReport`: SELECT * FROM dmarc_reports WHERE id = ?. -/
def getDmarcReport (db : DB) (id : Nat) : Option DmarcReport :=
  db.reports.find? (fun r => r.id == id)

/-- `getDmarcReportByReportId`: SELECT * FROM dmarc_reports WHERE report_id = ?. -/
def getDmarcReportByReportId (db : DB) (reportId : String) : Option DmarcReport :=
  db.reports.find? (fun r => r.report_id == reportId)

/-- `getUnprocessedReports`: SELECT * FROM dmarc_reports WHERE processed = 0
ORDER BY created_at ASC (creation order = insertion order). -/
def getUnprocessedReports (db : DB) : List DmarcReport :=
  db.reports.filter (fun r => !r.processed)

/-- `markReportProcessed`: UPDATE dmarc_reports SET processed = 1 WHERE id = ?. -/
def markReportProcessed (db : DB) (id : Nat) : DB :=
  { db with
      reports := db.reports.map (fun r => if r.id == id then { r with processed := true } else r) }

/-- `insertDmarcRecord`: INSERT INTO dmarc_records, returns lastInsertRowid. -/
def insertDmarcRecord (db : DB) (d : DmarcRecordData) : DB × Nat :=
  let rid := db.nextRecordId
  ({ db with
      records := db.records ++ [{ toDmarcRecordData := d, id := rid }]
      nextRecordId := rid + 1 }, rid)

/-- Total order on `dmarc_records` rows by descending `count` (the sort key
of `ORDER BY count DESC`). -/
def byCountDesc (a b : DmarcRecord) : Prop := b.count ≤ a.count

instance : DecidableRel byCountDesc := fun a b => Nat.decLe b.count a.count

instance : IsTotal DmarcRecord byCountDesc := ⟨fun a b => Nat.le_total b.count a.count⟩

instance : IsTrans DmarcRecord byCountDesc := ⟨fun _ _ _ h1 h2 => Nat.le_trans h2 h1⟩

/-- `getDmarcRecordsByReportId`: SELECT * FROM dmarc_records WHERE
report_id = ? ORDER BY count DESC. -/
def getDmarcRecordsByReportId (db : DB) (reportId : Nat) : List DmarcRecord :=
  (db.records.filter (fun r => r.report_id == reportId)).insertionSort byCountDesc

/-- `insertAiAnalysis`: INSERT INTO ai_analysis, returns lastInsertRowid. -/
def insertAiAnalysis (db : DB) (d : AiAnalysisData) : DB × Nat :=
  let aid := db.nextAnalysisId
  ({ db with
      analyses := db.analyses ++ [{ toAiAnalysisData := d, id := aid }]
      nextAnalysisId := aid + 1 }, aid)

/-- `getAiAnalysisByReportId`: SELECT * FROM ai_analysis WHERE report_id = ?. -/
def getAiAnalysisByReportId (db : DB) (reportId : Nat) : Option AiAnalysis :=
  db.analyses.find? (fun a => a.report_id == reportId)

/-- `insertNotification`: INSERT INTO notifications, returns lastInsertRowid. -/
def insertNotification (db : DB) (d : NotificationData) : DB × Nat :=
  let nid := db.nextNotificationId
  ({ db with
      notifications := db.notifications ++ [{ toNotificationData := d, id := nid }]
      nextNotificationId := nid + 1 }, nid)

/-- `getNotificationByAnalysisId`: SELECT * FROM notifications WHERE
analysis_id = ?. -/
def getNotificationByAnalysisId (db : DB) (analysisId : Nat) : Option Notification :=
  db.notifications.find? (fun n => n.analysis_id == analysisId)

/-- `insertProcessingLog`: INSERT INTO processing_log, returns lastInsertRowid. -/
def insertProcessingLog (db : DB) (d : ProcessingLogData) : DB × Nat :=
  let lid := db.nextLogId
  ({ db with
      logs := db.logs ++ [{ toProcessingLogData := d, id := lid }]
      nextLogId := lid + 1 }, lid)

/-! ## Counting helpers used by the claims -/

/-- Number of `dmarc_reports` rows carrying a given external report id. -/
def countReportsWithReportId (db : DB) (reportId : String) : Nat :=
  db.reports.countP (fun r => r.report_id == reportId)

/-- Number of `ai_analysis` rows for a given report rowid. -/
def countAnalysesForReport (db : DB) (reportId : Nat) : Nat :=
  db.analyses.countP (fun a => a.report_id == reportId)

/-- Number of `notifications` rows for a given analysis rowid. -/
def countNotificationsForAnalysis (db : DB) (analysisId : Nat) : Nat :=
  db.notifications.countP (fun n => n.analysis_id == analysisId)

/-- Whether the report with rowid `id` is marked processed (false also when
the report does not exist). -/
def reportProcessed (db : DB) (id : Nat) : Bool :=
  db.reports.any (fun r => r.id == id && r.processed)

/-! ## Report parser (src/lib/services/dmarc-parser.ts)

The XML-to-JSON step (`fast-xml-parser`'s `XMLParser.parse`) is an external
library; its result is embedded as a `DmarcDoc` value and the library itself
as a `decode` collaborator function (`none` models a thrown parse
exception). Object fields that may be absent at runtime are `Option`.
-/

/-- An XML element that the parser materializes either as a single object or,
when the tag repeats, as a (necessarily non-empty) array. -/
inductive OneOrMany (α : Type) where
  | one (value : α)
  | many (head : α) (tail : List α)
deriving Repr, DecidableEq

/-- `Array.isArray(x) ? x[0] : x` on a present value. -/
def OneOrMany.first {α : Type} : OneOrMany α → α
  | .one v => v
  | .many h _ => h

/-- `Array.isArray(record) ? record : [record]`. -/
def OneOrMany.toList {α : Type} : OneOrMany α → List α
  | .one v => [v]
  | .many h t => h :: t

/-- One `auth_results/dkim` entry. -/
structure DkimAuthEntry where
  domain : Option String
  result : Option String
  selector : Option String
deriving Repr, DecidableEq

/-- One `auth_results/spf` entry. -/
structure SpfAuthEntry where
  domain : Option String
  result : Option String
deriving Repr, DecidableEq

/-- The `auth_results` block of a detail record. -/
structure AuthResults where
  dkim : Option (OneOrMany DkimAuthEntry)
  spf : Option (OneOrMany SpfAuthEntry)
deriving Repr, DecidableEq

/-- The `row/policy_evaluated` block. -/
structure PolicyEvaluated where
  disposition : String
  dkim : String
  spf : String
deriving Repr, DecidableEq

/-- The `row` block of a detail record. -/
structure DmarcXmlRow where
  source_ip : String
  count : Nat
  policy_evaluated : PolicyEvaluated
deriving Repr, DecidableEq

/-- The `identifiers` block of a detail record. -/
structure DmarcXmlIdentifiers where
  header_from : String
  envelope_from : Option String
deriving Repr, DecidableEq

/-- One `<record>` detail block; `row` and `identifiers` may be absent in a
malformed document even though the TypeScript interface declares them. -/
structure DmarcXmlRecord where
  row : Option DmarcXmlRow
  identifiers : Option DmarcXmlIdentifiers
  auth_results : Option AuthResults
deriving Repr, DecidableEq

/-- The `report_metadata` block. -/
structure ReportMetadata where
  org_name : String
  email : String
  report_id : String
  date_begin : Nat
  date_end : Nat
deriving Repr, DecidableEq

/-- The `<feedback>` element of a DMARC aggregate report. -/
structure DmarcFeedback where
  report_metadata : ReportMetadata
  policy_published : DmarcPolicy
  record : OneOrMany DmarcXmlRecord
deriving Repr, DecidableEq

/-- Result of `XMLParser.parse`: an object that may or may not expose a
`feedback` element. -/
structure DmarcDoc where
  feedback : Option DmarcFeedback
deriving Repr, DecidableEq

/-- JavaScript `x || null` on an optional string: absent and empty both
coerce to `null`. -/
def jsOrNull : Option String → Option String
  | none => none
  | some s => if s.isEmpty then none else some s

/-- DKIM extraction of `parseDmarcXml`: take the first `auth_results.dkim`
entry when present and read its `domain || null` and `selector || null`. -/
def extractDkim (ar : Option AuthResults) : Option String × Option String :=
  match ar with
  | none => (none, none)
  | some a =>
    match a.dkim with
    | none => (none, none)
    | some dk => (jsOrNull dk.first.domain, jsOrNull dk.first.selector)

/-- SPF extraction of `parseDmarcXml`: take the first `auth_results.spf`
entry when present and read its `domain || null`. -/
def extractSpf (ar : Option AuthResults) : Option String :=
  match ar with
  | none => none
  | some a =>
    match a.spf with
    | none => none
    | some sp => jsOrNull sp.first.domain

/-- The record loop of `parseDmarcXml` (lines 119-158): skip a block whose
`row` is missing; a block whose `row` is present but whose `identifiers` is
missing raises a TypeError at `rec.identifiers.header_from` (result `none`),
leaving the rows already inserted in place; otherwise insert the extracted
`dmarc_records` row and count it. -/
def insertRecordsForReport (reportRowId : Nat) (db : DB) :
    List DmarcXmlRecord → DB × Option Nat
  | [] => (db, some 0)
  | rec :: rest =>
    match rec.row with
    | none => insertRecordsForReport reportRowId db rest
    | some row =>
      match rec.identifiers with
      | none => (db, none)
      | some ids =>
        let dkimInfo := extractDkim rec.auth_results
        let spfDomain := extractSpf rec.auth_results
        let inserted := insertDmarcRecord db
          { report_id := reportRowId
            source_ip := row.source_ip
            count := row.count
            disposition := row.policy_evaluated.disposition
            dkim := row.policy_evaluated.dkim
            spf := row.policy_evaluated.spf
            header_from := ids.header_from
            envelope_from := jsOrNull ids.envelope_from
            dkim_domain := dkimInfo.1
            dkim_selector := dkimInfo.2
            spf_domain := spfDomain
            country := none }
        let res := insertRecordsForReport reportRowId inserted.1 rest
        (res.1, res.2.map (· + 1))

/-- `parseDmarcXml` from the decoded document onward (lines 87-162): missing
`feedback` returns `null` without touching the store; an existing external
report id short-circuits to the stored rowid; otherwise insert the report row
and its detail records. `.error` models a rethrown exception. -/
def parseDmarcDoc (doc : DmarcDoc) (xmlContent : String) (db : DB) :
    DB × Except String (Option Nat) :=
  match doc.feedback with
  | none => (db, .ok none)
  | some fb =>
    match getDmarcReportByReportId db fb.report_metadata.report_id with
    | some existing => (db, .ok (some existing.id))
    | none =>
      let inserted := insertDmarcReport db
        { report_id := fb.report_metadata.report_id
          org_name := fb.report_metadata.org_name
          email := fb.report_metadata.email
          date_begin := fb.report_metadata.date_begin
          date_end := fb.report_metadata.date_end
          domain := fb.policy_published.domain
          policy_published := fb.policy_published
          raw_xml := xmlContent }
      let res := insertRecordsForReport inserted.2 inserted.1 fb.record.toList
      (res.1,
       match res.2 with
       | some _ => .ok (some inserted.2)
       | none => .error "TypeError: cannot read header_from of undefined")

/-- `parseDmarcXml` including the `XMLParser.parse` call, whose behavior is
the `decode` collaborator (`none` = the library threw; the surrounding catch
rethrows). -/
def parseDmarcXml (decode : String → Option DmarcDoc) (xmlContent : String)
    (db : DB) : DB × Except String (Option Nat) :=
  match decode xmlContent with
  | none => (db, .error "XML parse error")
  | some doc => parseDmarcDoc doc xmlContent db

/-- The `dmarc_records` row data the record loop derives from one detail
block: `some` when the block has both `row` and `identifiers`, `none` when
it has no `row` and is skipped. (A block with `row` but without
`identifiers` makes the loop throw instead of producing a value.) -/
def detailOf (reportRowId : Nat) (rec : DmarcXmlRecord) : Option DmarcRecordData :=
  match rec.row, rec.identifiers with
  | some row, some ids =>
    some { report_id := reportRowId
           source_ip := row.source_ip
           count := row.count
           disposition := row.policy_evaluated.disposition
           dkim := row.policy_evaluated.dkim
           spf := row.policy_evaluated.spf
           header_from := ids.header_from
           envelope_from := jsOrNull ids.envelope_from
           dkim_domain := (extractDkim rec.auth_results).1
           dkim_selector := (extractDkim rec.auth_results).2
           spf_domain := extractSpf rec.auth_results
           country := none }
  | _, _ => none

/-! ## Email fetcher (src/lib/services/email-fetcher.ts)

Gzip/zip decompression (`zlib.gunzipSync`, `adm-zip`) and the XML library
are collaborators collected in `ExtractEnv`; attachment contents are kept as
abstract strings of bytes.
-/

/-- One entry of a zip archive. -/
structure ZipEntry where
  entryName : String
  data : String
deriving Repr, DecidableEq

/-- A mail attachment: filename and raw content. -/
structure EmailAttachment where
  filename : String
  content : String
deriving Repr, DecidableEq

/-- A parsed mail message (`simpleParser` result): optional subject and
sender plus the attachment list. The source field `from` is a Lean keyword,
hence `fromAddr`. -/
structure EmailMessage where
  subject : Option String
  fromAddr : Option String
  attachments : List EmailAttachment
deriving Repr, DecidableEq

/-- JavaScript `filename.endsWith(suffix)`, computed over the character
lists so that concrete evaluation reduces. -/
def strEndsWith (s suffix : String) : Bool := suffix.data.isSuffixOf s.data

/-- External collaborators of the fetcher: `gunzip` and `unzip` return
`none` when the library throws; `decode` is the XML parser used by
`parseDmarcXml`. -/
structure ExtractEnv where
  gunzip : String → Option String
  unzip : String → Option (List ZipEntry)
  decode : String → Option DmarcDoc

/-- `extractXmlFromAttachment`: dispatch on the filename suffix. `.gz` is
single-stream decompressed; `.zip` prefers the first entry named `*.xml` and
otherwise falls back to the first entry; `.xml` is used verbatim; anything
else (and any extraction exception) yields `null`. -/
def extractXmlFromAttachment (env : ExtractEnv) (a : EmailAttachment) : Option String :=
  if strEndsWith a.filename ".gz" then
    env.gunzip a.content
  else if strEndsWith a.filename ".zip" then
    match env.unzip a.content with
    | none => none
    | some [] => none
    | some (e0 :: rest) =>
      match (e0 :: rest).find? (fun e => strEndsWith e.entryName ".xml") with
      | some e => some e.data
      | none => some e0.data
  else if strEndsWith a.filename ".xml" then
    some a.content
  else
    none

/-- The attachment loop of `processEmail` (lines 395-406): feed each
extracted payload to `parseDmarcXml`; `processedCount` is incremented
whenever the call returns without throwing — including when it returns
`null` for content with no `feedback` element; a thrown parse error is
caught and the loop continues. -/
def processAttachments (env : ExtractEnv) (db : DB) :
    List EmailAttachment → DB × Nat
  | [] => (db, 0)
  | a :: rest =>
    match extractXmlFromAttachment env a with
    | none => processAttachments env db rest
    | some xml =>
      match parseDmarcXml env.decode xml db with
      | (db1, .ok _) =>
        let r := processAttachments env db1 rest
        (r.1, r.2 + 1)
      | (db1, .error _) => processAttachments env db1 rest

/-- `processEmail` (lines 368-447), success path of `simpleParser`: no
attachments logs SKIPPED and leaves the message; otherwise process every
attachment, then either mark the message deleted and log SUCCESS with the
attachment count (when `processedCount > 0`) or log FAILED. The returned
`Bool` is whether the message was flagged `\Deleted`. -/
def processEmail (env : ExtractEnv) (seqno : Nat) (mail : EmailMessage)
    (db : DB) : DB × Bool :=
  let subject := mail.subject.getD "No Subject"
  let fromAddr := mail.fromAddr.getD "Unknown"
  match mail.attachments with
  | [] =>
    ((insertProcessingLog db
        { email_uid := toString seqno, subject := subject, from_address := fromAddr
          attachment_count := 0, status := "SKIPPED"
          error_message := some "No attachments found" }).1, false)
  | _ :: _ =>
    let r := processAttachments env db mail.attachments
    if r.2 > 0 then
      ((insertProcessingLog r.1
          { email_uid := toString seqno, subject := subject, from_address := fromAddr
            attachment_count := mail.attachments.length, status := "SUCCESS"
            error_message := none }).1, true)
    else
      ((insertProcessingLog r.1
          { email_uid := toString seqno, subject := subject, from_address := fromAddr
            attachment_count := mail.attachments.length, status := "FAILED"
            error_message := some "No valid DMARC XML found in attachments" }).1, false)

/-! ## Notification service (src/lib/services/notification.ts) -/

/-- Postal configuration read from the environment; a missing variable is
the empty string. -/
structure PostalConfig where
  apiKey : String
  baseUrl : String
  fromEmail : String
  toEmail : String
deriving Repr, DecidableEq

/-- The `!config.apiKey || !config.baseUrl || !config.fromEmail ||
!config.toEmail` completeness check (a missing variable is falsy). -/
def postalConfigComplete (c : PostalConfig) : Bool :=
  !c.apiKey.isEmpty && !c.baseUrl.isEmpty && !c.fromEmail.isEmpty && !c.toEmail.isEmpty

/-- Collaborators of the notification stage: the Postal configuration and
the send API (`sendPostalEmail`), indexed by the analysis rowid being
notified; `.ok` carries the external message id, `.error` a thrown failure
(HTTP error or non-success status). -/
structure NotifyEnv where
  postal : PostalConfig
  send : Nat → Except String String

/-- `sendThreatNotification` (lines 244-318): skip when a notification row
already exists for the analysis or when the threat level is below HIGH;
otherwise attempt the send, persisting a SENT row with the message id on
success and a FAILED row carrying the error on any exception (incomplete
configuration, missing report, send failure). Returns whether an alert was
sent. The email bodies are pure renderings and do not affect the stored
outcome, so they are not modelled. -/
def sendThreatNotification (env : NotifyEnv) (analysis : AiAnalysis)
    (reportId : Nat) (db : DB) : DB × Bool :=
  match getNotificationByAnalysisId db analysis.id with
  | some _ => (db, false)
  | none =>
    if analysis.threat_level != "HIGH" && analysis.threat_level != "CRITICAL" then
      (db, false)
    else if !postalConfigComplete env.postal then
      ((insertNotification db
          { analysis_id := analysis.id, threat_level := analysis.threat_level
            postal_message_id := none, status := "FAILED"
            error_message := some "Postal configuration incomplete" }).1, false)
    else
      match getDmarcReport db reportId with
      | none =>
        ((insertNotification db
            { analysis_id := analysis.id, threat_level := analysis.threat_level
              postal_message_id := none, status := "FAILED"
              error_message := some ("Report " ++ toString reportId ++ " not found") }).1,
         false)
      | some _ =>
        match env.send analysis.id with
        | .error e =>
          ((insertNotification db
              { analysis_id := analysis.id, threat_level := analysis.threat_level
                postal_message_id := none, status := "FAILED"
                error_message := some e }).1, false)
        | .ok messageId =>
          ((insertNotification db
              { analysis_id := analysis.id, threat_level := analysis.threat_level
                postal_message_id := some messageId, status := "SENT"
                error_message := none }).1, true)

/-! ## Claude analyzer (src/lib/services/claude-analyzer.ts) -/

/-- The model identifier constant `MODEL`. -/
def claudeModel : String := "claude-3-5-sonnet-20241022"

/-- The raw JSON object parsed from Claude's response text; the four
validated fields are optional because the response may omit them.
`compliance_score`, `trends` and `summary` are never validated and are
modelled as present. -/
structure ClaudeRawResponse where
  compliance_status : Option String
  compliance_score : Int
  threats : Option (List Threat)
  threat_level : Option String
  trends : String
  recommendations : Option (List String)
  summary : String
deriving Repr, DecidableEq

/-- A validated analysis response (interface `ClaudeAnalysisResponse`). -/
structure ClaudeAnalysisResponse where
  compliance_status : String
  compliance_score : Int
  threats : List Threat
  threat_level : String
  trends : String
  recommendations : List String
  summary : String
deriving Repr, DecidableEq

/-- JavaScript falsiness of an optional string: absent and empty are falsy. -/
def jsStrFalsy : Option String → Bool
  | none => true
  | some s => s.isEmpty

/-- The validation of `parseClaudeResponse`:
`!parsed.compliance_status || !parsed.threat_level || !parsed.threats ||
!parsed.recommendations` — all four fields must be present (and the two
strings non-empty; an empty list is truthy in JavaScript). -/
def hasRequiredFields (p : ClaudeRawResponse) : Bool :=
  !jsStrFalsy p.compliance_status && !jsStrFalsy p.threat_level
    && !p.threats.isNone && !p.recommendations.isNone

/-- `parseClaudeResponse` (lines 136-159) from the JSON parse onward:
code-fence stripping and `JSON.parse` are the upstream step producing the
input, `none` modelling a JSON parse exception; a response missing a
required field throws, and both errors are rethrown wrapped. -/
def parseClaudeResponse (raw : Option ClaudeRawResponse) :
    Except String ClaudeAnalysisResponse :=
  match raw with
  | none => .error "Failed to parse Claude response"
  | some p =>
    if hasRequiredFields p then
      .ok { compliance_status := (p.compliance_status.getD "")
            compliance_score := p.compliance_score
            threats := (p.threats.getD [])
            threat_level := (p.threat_level.getD "")
            trends := p.trends
            recommendations := (p.recommendations.getD [])
            summary := p.summary }
    else
      .error "Missing required fields in Claude response"

/-- Outcome of one `anthropic.messages.create` call: the API threw, or it
returned text whose cleaned JSON parse is the payload (`none` = JSON parse
failure). -/
inductive ClaudeCallResult where
  | apiError (msg : String)
  | response (raw : Option ClaudeRawResponse)

/-- Collaborators of the analyzer: whether `ANTHROPIC_API_KEY` is set and,
per report rowid, what the Claude call for that report produces. -/
structure AnalyzerEnv where
  hasApiKey : Bool
  response : Nat → ClaudeCallResult

/-- The per-record payload of `buildAnalysisPrompt` (lines 55-66): the
normalized field projection of a stored record, in list order. -/
structure PromptRecord where
  source_ip : String
  count : Nat
  disposition : String
  dkim : String
  spf : String
  header_from : String
  envelope_from : Option String
  dkim_domain : Option String
  dkim_selector : Option String
  spf_domain : Option String
deriving Repr, DecidableEq

/-- Field projection of one stored record into the prompt payload. -/
def promptRecordOf (r : DmarcRecord) : PromptRecord :=
  { source_ip := r.source_ip, count := r.count, disposition := r.disposition
    dkim := r.dkim, spf := r.spf, header_from := r.header_from
    envelope_from := r.envelope_from, dkim_domain := r.dkim_domain
    dkim_selector := r.dkim_selector, spf_domain := r.spf_domain }

/-- The `records` array embedded in the prompt of `buildAnalysisPrompt`. -/
def buildAnalysisPromptRecords (records : List DmarcRecord) : List PromptRecord :=
  records.map promptRecordOf

/-- `analyzeReport` (lines 164-238): call Claude, validate the response,
persist the analysis, notify synchronously on HIGH/CRITICAL, then mark the
report processed. Any exception before the insert leaves the store
untouched and is rethrown to the loop. -/
def analyzeReport (env : AnalyzerEnv) (nenv : NotifyEnv) (report : DmarcReport)
    (records : List DmarcRecord) (db : DB) : DB × Except String Unit :=
  match env.response report.id with
  | .apiError e => (db, .error e)
  | .response raw =>
    match parseClaudeResponse raw with
    | .error e => (db, .error e)
    | .ok analysis =>
      let inserted := insertAiAnalysis db
        { report_id := report.id
          compliance_status := analysis.compliance_status
          compliance_score := analysis.compliance_score
          threats_detected := analysis.threats
          threat_level := analysis.threat_level
          trends := analysis.trends
          recommendations := analysis.recommendations
          summary := analysis.summary
          model_version := claudeModel }
      let db2 :=
        if analysis.threat_level == "HIGH" || analysis.threat_level == "CRITICAL" then
          (sendThreatNotification nenv
            { toAiAnalysisData :=
                { report_id := report.id
                  compliance_status := analysis.compliance_status
                  compliance_score := analysis.compliance_score
                  threats_detected := analysis.threats
                  threat_level := analysis.threat_level
                  trends := analysis.trends
                  recommendations := analysis.recommendations
                  summary := analysis.summary
                  model_version := claudeModel }
              id := inserted.2 }
            report.id inserted.1).1
        else inserted.1
      (markReportProcessed db2 report.id, .ok ())

/-- Observable scheduling events of one Assessment Stage batch, in order:
a successful analysis, the fixed rate-limiting pause
(`setTimeout(resolve, 1000)`), an empty report marked processed without
analysis, or a caught per-report failure. -/
inductive AnalyzerEvent where
  | analyzed (reportId : Nat)
  | delayed
  | skippedEmpty (reportId : Nat)
  | failed (reportId : Nat)
deriving Repr, DecidableEq

/-- The report loop of `analyzeUnprocessedReports` (lines 256-275): a report
with no records is marked processed and skipped; a successful analysis is
counted and followed by the 1000 ms delay (which sits inside the `try`,
after the count, and therefore also runs after the last report); a caught
failure skips both count and delay and continues. Returns the final store,
the analyzed count, and the event trace. -/
def analyzeLoop (env : AnalyzerEnv) (nenv : NotifyEnv) (db : DB) :
    List DmarcReport → DB × Nat × List AnalyzerEvent
  | [] => (db, 0, [])
  | report :: rest =>
    let records := getDmarcRecordsByReportId db report.id
    if records.isEmpty then
      let r := analyzeLoop env nenv (markReportProcessed db report.id) rest
      (r.1, r.2.1, .skippedEmpty report.id :: r.2.2)
    else
      match analyzeReport env nenv report records db with
      | (db1, .ok _) =>
        let r := analyzeLoop env nenv db1 rest
        (r.1, r.2.1 + 1, .analyzed report.id :: .delayed :: r.2.2)
      | (db1, .error _) =>
        let r := analyzeLoop env nenv db1 rest
        (r.1, r.2.1, .failed report.id :: r.2.2)

/-- `analyzeUnprocessedReports` (lines 243-280): fail outright when the API
key is missing (`getAnthropicClient` throws), otherwise run the loop over
the snapshot of unprocessed reports and return the analyzed count with the
event trace. -/
def analyzeUnprocessedReports (env : AnalyzerEnv) (nenv : NotifyEnv) (db : DB) :
    DB × Except String (Nat × List AnalyzerEvent) :=
  if env.hasApiKey then
    let r := analyzeLoop env nenv db (getUnprocessedReports db)
    (r.1, .ok r.2)
  else
    (db, .error "ANTHROPIC_API_KEY not found in environment variables")

/-! ## Scheduler (src/unnamed scheduler service)

`runPipeline` guards on the module-level `isRunning` flag, runs Message
Intake then the Assessment Stage, records the outcome of the run, and
clears the flag in `finally`. A trigger firing while a run is in progress
re-enters `runPipeline` at an await point and sees `isRunning = true`; the
shallow rendering is a call made in a state whose `isRunning` is `true`.
The two stages are collaborators here: each maps the store to the store
after its partial effects plus `some error` when it threw.
-/

/-- Outcome classification of the last completed run. -/
inductive RunStatus where
  | success
  | error
deriving Repr, DecidableEq

/-- The scheduler's mutable module state: the single-flight flag and the
remembered outcome fields (`lastRunStatus`, `lastRunError`). -/
structure SchedulerState where
  isRunning : Bool
  lastRunStatus : Option RunStatus
  lastRunError : Option String
deriving Repr, DecidableEq

/-- The two pipeline stages as collaborators: `intake` returns the store
after `fetchAndProcessEmails` plus `some message` when it rejected;
`analyze` returns the store after `analyzeUnprocessedReports` plus the
analyzed count or the thrown error. -/
structure PipelineEnv where
  intake : DB → DB × Option String
  analyze : DB → DB × Except String Nat

/-- `runPipeline` (scheduler lines 187-222): drop the trigger when a run is
in progress; otherwise run intake then assessment in order, record an error
outcome from either stage or a success outcome, and clear `isRunning`. -/
def runPipeline (env : PipelineEnv) (s : SchedulerState) (db : DB) :
    SchedulerState × DB :=
  if s.isRunning then (s, db)
  else
    match env.intake db with
    | (db1, some e) =>
      ({ isRunning := false, lastRunStatus := some .error, lastRunError := some e }, db1)
    | (db1, none) =>
      match env.analyze db1 with
      | (db2, .error e) =>
        ({ isRunning := false, lastRunStatus := some .error, lastRunError := some e }, db2)
      | (db2, .ok _) =>
        ({ isRunning := false, lastRunStatus := some .success, lastRunError := none }, db2)

/-! ## Trace shape of one Assessment Stage batch -/

/-- The possible shapes of an Assessment Stage event trace: each skipped or
failed report contributes its single event, and each successful analysis is
immediately followed by the rate-limiting delay — in particular also when it
is the last report of the batch. -/
inductive DelayedTrace : List AnalyzerEvent → Prop where
  | nil : DelayedTrace []
  | skip (reportId : Nat) {t : List AnalyzerEvent} :
      DelayedTrace t → DelayedTrace (.skippedEmpty reportId :: t)
  | fail (reportId : Nat) {t : List AnalyzerEvent} :
      DelayedTrace t → DelayedTrace (.failed reportId :: t)
  | success (reportId : Nat) {t : List AnalyzerEvent} :
      DelayedTrace t → DelayedTrace (.analyzed reportId :: .delayed :: t)

/-! ## Concrete fixtures for witnesses and counterexamples -/

/-- A published policy value used by the concrete documents. -/
def policy1 : DmarcPolicy :=
  { domain := "example.com", adkim := some "r", aspf := some "r"
    p := "none", sp := none, pct := some 100 }

/-- Report columns of a concrete ingested report. -/
def repData1 : DmarcReportData :=
  { report_id := "R1", org_name := "reporter.example", email := "noc@reporter.example"
    date_begin := 1700000000, date_end := 1700086400, domain := "example.com"
    policy_published := policy1, raw_xml := "<feedback/>" }

/-- A store holding exactly one unprocessed report (rowid 1) and no records. -/
def dbOneEmptyReport : DB := (insertDmarcReport DB.empty repData1).1

/-- The stored row of `repData1`. -/
def reportRow1 : DmarcReport :=
  { toDmarcReportData := repData1, id := 1, processed := false }

/-- Record columns of a concrete detail record belonging to report 1. -/
def recData1 : DmarcRecordData :=
  { report_id := 1, source_ip := "192.0.2.10", count := 4, disposition := "none"
    dkim := "fail", spf := "fail", header_from := "example.com"
    envelope_from := some "mx.example.com", dkim_domain := none
    dkim_selector := none, spf_domain := some "example.com", country := none }

/-- A store holding report 1 plus one of its detail records. -/
def dbReportWithRecord : DB := (insertDmarcRecord dbOneEmptyReport recData1).1

/-- An analyzer environment whose Claude call always throws. -/
def stubAnalyzerEnv : AnalyzerEnv := ⟨true, fun _ => .apiError "stub"⟩

/-- A notification environment with empty configuration and a failing send
API. -/
def stubNotifyEnv : NotifyEnv := ⟨⟨"", "", "", ""⟩, fun _ => .error "stub"⟩

/-- A schema-invalid Claude response: the `recommendations` field is absent. -/
def rawMissingRecommendations : ClaudeRawResponse :=
  { compliance_status := some "FAIL", compliance_score := 10
    threats := some [], threat_level := some "HIGH", trends := "{}"
    recommendations := none, summary := "bad" }

/-- An analyzer environment answering every report with the response missing
`recommendations`. -/
def envMissingRecommendations : AnalyzerEnv :=
  ⟨true, fun _ => .response (some rawMissingRecommendations)⟩

/-- A schema-valid LOW-severity Claude response. -/
def rawLowResponse : ClaudeRawResponse :=
  { compliance_status := some "PASS", compliance_score := 95
    threats := some [], threat_level := some "LOW", trends := "{}"
    recommendations := some ["keep monitoring"], summary := "fine" }

/-- An analyzer environment answering every report with the valid LOW
response. -/
def envLowResponse : AnalyzerEnv := ⟨true, fun _ => .response (some rawLowResponse)⟩

/-- Report metadata of the concrete documents. -/
def metaR1 : ReportMetadata :=
  { org_name := "reporter.example", email := "noc@reporter.example"
    report_id := "R1", date_begin := 1700000000, date_end := 1700086400 }

/-- A fully well-formed detail block. -/
def goodRecord : DmarcXmlRecord :=
  { row := some { source_ip := "192.0.2.10", count := 4
                  policy_evaluated := { disposition := "none", dkim := "pass", spf := "fail" } }
    identifiers := some { header_from := "example.com", envelope_from := some "mx.example.com" }
    auth_results := none }

/-- A well-formed single-record document with external id R1. -/
def docGood : DmarcDoc := ⟨some ⟨metaR1, policy1, .one goodRecord⟩⟩

/-- A detail block that has a `row` but no `identifiers` sub-structure. -/
def rowNoIdsRecord : DmarcXmlRecord :=
  { row := some { source_ip := "198.51.100.7", count := 2
                  policy_evaluated := { disposition := "reject", dkim := "fail", spf := "fail" } }
    identifiers := none
    auth_results := none }

/-- A document whose only detail block lacks `identifiers`. -/
def docRowNoIds : DmarcDoc :=
  ⟨some ⟨{ metaR1 with report_id := "R2" }, policy1, .one rowNoIdsRecord⟩⟩

/-- A detail block whose auth results carry two DKIM and two SPF entries. -/
def multiAuthRecord : DmarcXmlRecord :=
  { row := some { source_ip := "203.0.113.9", count := 7
                  policy_evaluated := { disposition := "quarantine", dkim := "pass", spf := "pass" } }
    identifiers := some { header_from := "example.com", envelope_from := none }
    auth_results := some
      { dkim := some (.many { domain := some "example.com", result := some "pass", selector := some "sel1" }
          [{ domain := some "other.example", result := some "fail", selector := some "sel2" }])
        spf := some (.many { domain := some "example.com", result := some "pass" }
          [{ domain := some "spoof.example", result := some "fail" }]) } }

/-- A document whose only detail block has repeated auth-result entries. -/
def docMultiAuth : DmarcDoc :=
  ⟨some ⟨{ metaR1 with report_id := "R3" }, policy1, .one multiAuthRecord⟩⟩

/-- A fetcher environment for a zip archive with a single non-XML-named
entry whose content decodes (as `fast-xml-parser` does for arbitrary XML) to
an object without a `feedback` element. -/
def fetcherEnvNoFeedback : ExtractEnv :=
  { gunzip := fun _ => none
    unzip := fun c => if c == "PK-ZIPBYTES" then some [⟨"entry.txt", "<foo></foo>"⟩] else none
    decode := fun s => if s == "<foo></foo>" then some ⟨none⟩ else none }

/-- A message carrying that single zip attachment. -/
def mailZipNoFeedback : EmailMessage :=
  { subject := some "DMARC Aggregate Report", fromAddr := some "reports@mailer.example"
    attachments := [{ filename := "report.zip", content := "PK-ZIPBYTES" }] }

/-! ## General lemmas about the store operations -/

lemma countNotifications_insertNotification (db : DB) (d : NotificationData) (i : Nat) :
    countNotificationsForAnalysis (insertNotification db d).1 i
      = countNotificationsForAnalysis db i + (if d.analysis_id == i then 1 else 0) := by
  simp [countNotificationsForAnalysis, insertNotification, List.countP_append,
    List.countP_cons]

lemma countNotifications_eq_zero_of_find_none (db : DB) (i : Nat)
    (h : getNotificationByAnalysisId db i = none) :
    countNotificationsForAnalysis db i = 0 := by
  rw [countNotificationsForAnalysis, List.countP_eq_zero]
  intro n hn
  have := List.find?_eq_none.mp h n hn
  simpa using this

/-- C2: the Scheduler is single-flight with a remembered outcome. A trigger
that arrives while `isRunning` is set is dropped with no side effect on the
state or the store, so the state stays Running until the in-progress run
completes; when Idle, an exception from Message Intake or from the
Assessment Stage is captured as the run's error outcome and the state
returns to Idle; normal completion of both stages records a success outcome
and returns to Idle. -/
theorem scheduler_single_flight_spec (env : PipelineEnv) (s : SchedulerState) (db : DB) :
    (s.isRunning = true → runPipeline env s db = (s, db)) ∧
    (s.isRunning = false →
      (∀ db1 e, env.intake db = (db1, some e) →
        runPipeline env s db =
          ({ isRunning := false, lastRunStatus := some .error, lastRunError := some e },
           db1)) ∧
      (∀ db1 db2 e, env.intake db = (db1, none) → env.analyze db1 = (db2, .error e) →
        runPipeline env s db =
          ({ isRunning := false, lastRunStatus := some .error, lastRunError := some e },
           db2)) ∧
      (∀ db1 db2 n, env.intake db = (db1, none) → env.analyze db1 = (db2, .ok n) →
        runPipeline env s db =
          ({ isRunning := false, lastRunStatus := some .success, lastRunError := none },
           db2))) := by
  refine ⟨fun h => by simp [runPipeline, h], fun h => ⟨?_, ?_, ?_⟩⟩
  · intro db1 e hint
    simp [runPipeline, h, hint]
  · intro db1 db2 e hint hana
    simp [runPipeline, h, hint, hana]
  · intro db1 db2 n hint hana
    simp [runPipeline, h, hint, hana]

/-- Witness for `scheduler_single_flight_spec`: a trigger in the Running
state is a no-op on a concrete environment. -/
theorem scheduler_single_flight_spec_witness :
    runPipeline ⟨fun db => (db, none), fun db => (db, .ok 0)⟩
        ⟨true, none, none⟩ DB.empty = (⟨true, none, none⟩, DB.empty) :=
  (scheduler_single_flight_spec ⟨fun db => (db, none), fun db => (db, .ok 0)⟩
    ⟨true, none, none⟩ DB.empty).1 rfl

/-- C10: the DetailRecords supplied to the reasoning-service request are the
stored records of the report sorted by message count in descending order: a
permutation of the stored rows that is sorted by `count` descending, and the
prompt payload lists exactly their field projections in that order. -/
theorem assessment_prompt_records_count_desc (db : DB) (rid : Nat) :
    List.Perm (getDmarcRecordsByReportId db rid)
        (db.records.filter (fun r => r.report_id == rid))
    ∧ List.Sorted byCountDesc (getDmarcRecordsByReportId db rid)
    ∧ buildAnalysisPromptRecords (getDmarcRecordsByReportId db rid)
        = (getDmarcRecordsByReportId db rid).map promptRecordOf :=
  ⟨List.perm_insertionSort byCountDesc _, List.sorted_insertionSort byCountDesc _, rfl⟩

/-- C7: for every Assessment, the Notification Stage writes at most one
`notifications` row with its analysis id no matter how often it is invoked
(an existing row short-circuits to a skip), and for a severity below the two
highest levels the call returns "not sent" and writes nothing — uniformly in
the send collaborator, so no send is attempted. -/
theorem notification_dedup_and_threshold (env : NotifyEnv) (a : AiAnalysis)
    (rid : Nat) (db : DB) :
    countNotificationsForAnalysis (sendThreatNotification env a rid db).1 a.id
        ≤ max (countNotificationsForAnalysis db a.id) 1
    ∧ ((getNotificationByAnalysisId db a.id).isSome →
        sendThreatNotification env a rid db = (db, false))
    ∧ (a.threat_level ≠ "HIGH" → a.threat_level ≠ "CRITICAL" →
        ∀ env' : NotifyEnv, sendThreatNotification env' a rid db = (db, false)) := by
  cases hfind : getNotificationByAnalysisId db a.id with
  | some n =>
    refine ⟨?_, fun _ => ?_, fun _ _ env' => ?_⟩
    · simp [sendThreatNotification, hfind]
    · simp [sendThreatNotification, hfind]
    · simp [sendThreatNotification, hfind]
  | none =>
    have hzero : countNotificationsForAnalysis db a.id = 0 :=
      countNotifications_eq_zero_of_find_none db a.id hfind
    refine ⟨?_, fun hsome => by simp [hfind] at hsome, fun h1 h2 env' => ?_⟩
    · rw [sendThreatNotification]
      rw [hfind]
      by_cases hlvl : (a.threat_level != "HIGH" && a.threat_level != "CRITICAL") = true
      · simp [hlvl, hzero]
      · simp only [hlvl, Bool.false_eq_true, if_false]
        by_cases hcfg : (!postalConfigComplete env.postal) = true
        · simp [hcfg, countNotifications_insertNotification, hzero]
        · simp only [hcfg, Bool.false_eq_true, if_false]
          cases hrep : getDmarcReport db rid with
          | none => simp [countNotifications_insertNotification, hzero]
          | some r =>
            cases hsend : env.send a.id with
            | error e => simp [hsend, countNotifications_insertNotification, hzero]
            | ok m => simp [hsend, countNotifications_insertNotification, hzero]
    · have hcond : (a.threat_level != "HIGH" && a.threat_level != "CRITICAL") = true := by
        simp [bne, h1, h2]
      simp [sendThreatNotification, hfind, hcond]

/-- Witness for `notification_dedup_and_threshold`: a LOW-severity
assessment is not sent and writes nothing on a concrete store. -/
theorem notification_dedup_and_threshold_witness :
    sendThreatNotification ⟨⟨"", "", "", ""⟩, fun _ => .error "down"⟩
        { toAiAnalysisData :=
            { report_id := 1, compliance_status := "PASS", compliance_score := 90
              threats_detected := [], threat_level := "LOW", trends := "{}"
              recommendations := [], summary := "ok", model_version := "m" }
          id := 1 }
        1 DB.empty = (DB.empty, false) :=
  (notification_dedup_and_threshold ⟨⟨"", "", "", ""⟩, fun _ => .error "down"⟩
      { toAiAnalysisData :=
          { report_id := 1, compliance_status := "PASS", compliance_score := 90
            threats_detected := [], threat_level := "LOW", trends := "{}"
            recommendations := [], summary := "ok", model_version := "m" }
        id := 1 }
      1 DB.empty).2.2 (by decide) (by decide)
    ⟨⟨"", "", "", ""⟩, fun _ => .error "down"⟩

/-! ## Preservation lemmas for the analyzer loop -/

lemma sendThreatNotification_preserves (env : NotifyEnv) (a : AiAnalysis)
    (rid : Nat) (db : DB) :
    (sendThreatNotification env a rid db).1.analyses = db.analyses
    ∧ (sendThreatNotification env a rid db).1.reports = db.reports := by
  rw [sendThreatNotification]
  cases getNotificationByAnalysisId db a.id with
  | some n => exact ⟨rfl, rfl⟩
  | none =>
    by_cases h1 : (a.threat_level != "HIGH" && a.threat_level != "CRITICAL") = true
    · simp [h1]
    · simp only [h1, Bool.false_eq_true, if_false]
      by_cases h2 : (!postalConfigComplete env.postal) = true
      · simp [h2, insertNotification]
      · simp only [h2, Bool.false_eq_true, if_false]
        cases getDmarcReport db rid with
        | none => simp [insertNotification]
        | some r =>
          cases env.send a.id with
          | error e => simp [insertNotification]
          | ok m => simp [insertNotification]

lemma markReportProcessed_analyses (db : DB) (y : Nat) :
    (markReportProcessed db y).analyses = db.analyses := rfl

lemma reportProcessed_congr_reports (db1 db2 : DB) (x : Nat)
    (h : db1.reports = db2.reports) :
    reportProcessed db1 x = reportProcessed db2 x := by
  simp [reportProcessed, h]

lemma reportProcessed_markReportProcessed_ne (db : DB) (y x : Nat) (h : x ≠ y) :
    reportProcessed (markReportProcessed db y) x = reportProcessed db x := by
  unfold reportProcessed markReportProcessed
  rw [Bool.eq_iff_iff]
  simp only [List.any_eq_true, List.mem_map]
  constructor
  · rintro ⟨r', ⟨r, hr, rfl⟩, hp⟩
    by_cases hy : (r.id == y) = true
    · have : r.id = y := by simpa using hy
      simp [hy, this, Ne.symm h] at hp
    · exact ⟨r, hr, by simpa [hy] using hp⟩
  · rintro ⟨r, hr, hp⟩
    refine ⟨if r.id == y then { r with processed := true } else r, ⟨r, hr, rfl⟩, ?_⟩
    by_cases hy : (r.id == y) = true
    · have : r.id = y := by simpa using hy
      simp [this, Ne.symm h] at hp
    · simpa [hy] using hp

lemma countAnalyses_insertAiAnalysis (db : DB) (d : AiAnalysisData) (x : Nat) :
    countAnalysesForReport (insertAiAnalysis db d).1 x
      = countAnalysesForReport db x + (if d.report_id == x then 1 else 0) := by
  simp [countAnalysesForReport, insertAiAnalysis, List.countP_append, List.countP_cons]

lemma countAnalyses_congr_analyses (db1 db2 : DB) (x : Nat)
    (h : db1.analyses = db2.analyses) :
    countAnalysesForReport db1 x = countAnalysesForReport db2 x := by
  simp [countAnalysesForReport, h]

lemma countAnalyses_markReportProcessed (db : DB) (y x : Nat) :
    countAnalysesForReport (markReportProcessed db y) x = countAnalysesForReport db x :=
  countAnalyses_congr_analyses _ db x (markReportProcessed_analyses db y)

lemma analyzeReport_preserves (env : AnalyzerEnv) (nenv : NotifyEnv)
    (rep : DmarcReport) (recs : List DmarcRecord) (db : DB) (x : Nat)
    (h : rep.id ≠ x) :
    countAnalysesForReport (analyzeReport env nenv rep recs db).1 x
        = countAnalysesForReport db x
    ∧ reportProcessed (analyzeReport env nenv rep recs db).1 x
        = reportProcessed db x := by
  have hbeq : (rep.id == x) = false := by simpa using h
  rcases hresp : env.response rep.id with e | raw
  · simp [analyzeReport, hresp]
  · rcases hparse : parseClaudeResponse raw with e2 | analysis
    · simp [analyzeReport, hresp, hparse]
    · simp only [analyzeReport, hresp, hparse]
      by_cases hlvl :
          (analysis.threat_level == "HIGH" || analysis.threat_level == "CRITICAL") = true
      · simp only [hlvl, if_true]
        constructor
        · rw [countAnalyses_markReportProcessed,
            countAnalyses_congr_analyses _ _ x (sendThreatNotification_preserves _ _ _ _).1,
            countAnalyses_insertAiAnalysis]
          simp [hbeq]
        · rw [reportProcessed_markReportProcessed_ne _ _ _ (Ne.symm h)]
          exact reportProcessed_congr_reports _ db x
            ((sendThreatNotification_preserves _ _ _ _).2.trans rfl)
      · simp only [hlvl, Bool.false_eq_true, if_false]
        constructor
        · rw [countAnalyses_markReportProcessed, countAnalyses_insertAiAnalysis]
          simp [hbeq]
        · rw [reportProcessed_markReportProcessed_ne _ _ _ (Ne.symm h)]
          exact reportProcessed_congr_reports _ db x rfl

lemma analyzeLoop_preserves (env : AnalyzerEnv) (nenv : NotifyEnv) (x : Nat) :
    ∀ (l : List DmarcReport) (db : DB), (∀ rep ∈ l, rep.id ≠ x) →
      countAnalysesForReport (analyzeLoop env nenv db l).1 x
          = countAnalysesForReport db x
      ∧ reportProcessed (analyzeLoop env nenv db l).1 x = reportProcessed db x
  | [], db, _ => ⟨rfl, rfl⟩
  | rep :: rest, db, h => by
    have hrep : rep.id ≠ x := h rep (List.mem_cons_self rep rest)
    have hrest : ∀ r ∈ rest, r.id ≠ x := fun r hr => h r (List.mem_cons_of_mem rep hr)
    rw [analyzeLoop]
    by_cases hempty : (getDmarcRecordsByReportId db rep.id).isEmpty = true
    · simp only [hempty, if_true]
      have ih := analyzeLoop_preserves env nenv x rest (markReportProcessed db rep.id) hrest
      refine ⟨ih.1.trans ?_, ih.2.trans ?_⟩
      · exact countAnalyses_congr_analyses _ db x (markReportProcessed_analyses db rep.id)
      · exact reportProcessed_markReportProcessed_ne db rep.id x (Ne.symm hrep)
    · simp only [hempty, Bool.false_eq_true, if_false]
      rcases hstep : analyzeReport env nenv rep (getDmarcRecordsByReportId db rep.id) db
        with ⟨db1, outcome⟩
      have hpres := analyzeReport_preserves env nenv rep
        (getDmarcRecordsByReportId db rep.id) db x hrep
      rw [hstep] at hpres
      have ih := analyzeLoop_preserves env nenv x rest db1 hrest
      cases outcome with
      | ok u => exact ⟨ih.1.trans hpres.1, ih.2.trans hpres.2⟩
      | error e => exact ⟨ih.1.trans hpres.1, ih.2.trans hpres.2⟩

/-- C8: in the Assessment Stage, a selected report with zero DetailRecords
is marked assessed immediately, contributes no event besides the skip, is
not counted in the returned analyzed count, and — when no later batch entry
reuses its rowid — ends the batch with no Assessment row. -/
theorem analyzer_empty_report_marked (env : AnalyzerEnv) (nenv : NotifyEnv)
    (db : DB) (r : DmarcReport) (rest : List DmarcReport)
    (hempty : getDmarcRecordsByReportId db r.id = []) :
    analyzeLoop env nenv db (r :: rest)
      = ((analyzeLoop env nenv (markReportProcessed db r.id) rest).1,
         (analyzeLoop env nenv (markReportProcessed db r.id) rest).2.1,
         AnalyzerEvent.skippedEmpty r.id ::
           (analyzeLoop env nenv (markReportProcessed db r.id) rest).2.2)
    ∧ ((∀ rep ∈ rest, rep.id ≠ r.id) →
        countAnalysesForReport (analyzeLoop env nenv db (r :: rest)).1 r.id
          = countAnalysesForReport db r.id) := by
  constructor
  · rw [analyzeLoop]
    simp [hempty]
  · intro hdist
    rw [analyzeLoop]
    simp only [hempty, List.isEmpty_nil, if_true]
    rw [(analyzeLoop_preserves env nenv r.id rest (markReportProcessed db r.id) hdist).1]
    exact countAnalyses_markReportProcessed db r.id r.id

/-- Witness for `analyzer_empty_report_marked`: a batch of one record-less
report on a concrete store is marked processed, produces no analysis, and
returns count 0. -/
theorem analyzer_empty_report_marked_witness :
    analyzeLoop stubAnalyzerEnv stubNotifyEnv dbOneEmptyReport [reportRow1]
      = (markReportProcessed dbOneEmptyReport 1, 0, [AnalyzerEvent.skippedEmpty 1]) := by
  have h := (analyzer_empty_report_marked stubAnalyzerEnv stubNotifyEnv
    dbOneEmptyReport reportRow1 [] rfl).1
  simpa [analyzeLoop, reportRow1] using h

/-- C6: when the reasoning-service response fails the required-field
validation (`compliance_status` / `threat_level` / `threats` /
`recommendations`), the report's analysis attempt throws without touching
the store, the batch records a failure event and continues with the
remaining reports unchanged, and — when no later batch entry reuses the
rowid — the batch ends with no Assessment row for the report and its
processed flag unchanged. -/
theorem analyzer_validation_failure_spec (env : AnalyzerEnv) (nenv : NotifyEnv)
    (db : DB) (r : DmarcReport) (rest : List DmarcReport) (p : ClaudeRawResponse)
    (hresp : env.response r.id = .response (some p))
    (hval : hasRequiredFields p = false)
    (hrecs : getDmarcRecordsByReportId db r.id ≠ []) :
    analyzeReport env nenv r (getDmarcRecordsByReportId db r.id) db
        = (db, .error "Missing required fields in Claude response")
    ∧ analyzeLoop env nenv db (r :: rest)
        = ((analyzeLoop env nenv db rest).1, (analyzeLoop env nenv db rest).2.1,
           AnalyzerEvent.failed r.id :: (analyzeLoop env nenv db rest).2.2)
    ∧ ((∀ rep ∈ rest, rep.id ≠ r.id) →
        countAnalysesForReport (analyzeLoop env nenv db (r :: rest)).1 r.id
            = countAnalysesForReport db r.id
        ∧ reportProcessed (analyzeLoop env nenv db (r :: rest)).1 r.id
            = reportProcessed db r.id) := by
  have hparse : parseClaudeResponse (some p)
      = .error "Missing required fields in Claude response" := by
    simp [parseClaudeResponse, hval]
  have hstep : analyzeReport env nenv r (getDmarcRecordsByReportId db r.id) db
      = (db, .error "Missing required fields in Claude response") := by
    simp [analyzeReport, hresp, hparse]
  have hne : (getDmarcRecordsByReportId db r.id).isEmpty = false := by
    cases hcase : getDmarcRecordsByReportId db r.id with
    | nil => exact absurd hcase hrecs
    | cons a t => rfl
  have hloop : analyzeLoop env nenv db (r :: rest)
      = ((analyzeLoop env nenv db rest).1, (analyzeLoop env nenv db rest).2.1,
         AnalyzerEvent.failed r.id :: (analyzeLoop env nenv db rest).2.2) := by
    rw [analyzeLoop]
    simp only [hne, Bool.false_eq_true, if_false, hstep]
  refine ⟨hstep, hloop, fun hdist => ?_⟩
  rw [hloop]
  exact analyzeLoop_preserves env nenv r.id rest db hdist

/-- Witness for `analyzer_validation_failure_spec`: a concrete batch of one
report whose response lacks `recommendations` ends with count 0, a failure
event, and the store untouched. -/
theorem analyzer_validation_failure_spec_witness :
    analyzeLoop envMissingRecommendations stubNotifyEnv dbReportWithRecord [reportRow1]
      = (dbReportWithRecord, 0, [AnalyzerEvent.failed 1]) := by
  have h := (analyzer_validation_failure_spec envMissingRecommendations stubNotifyEnv
    dbReportWithRecord reportRow1 [] rawMissingRecommendations rfl rfl
    (by decide)).2.1
  simpa [analyzeLoop, reportRow1] using h

/-- C3 (amended): the event trace of one Assessment Stage batch always has
the `DelayedTrace` shape — the fixed rate-limiting delay immediately follows
every successful report assessment, including the final one of the batch,
and follows nothing else — and the number of delays equals the returned
analyzed count. -/
theorem analyzer_delay_follows_each_success (env : AnalyzerEnv) (nenv : NotifyEnv) :
    ∀ (l : List DmarcReport) (db : DB),
      DelayedTrace (analyzeLoop env nenv db l).2.2
      ∧ (analyzeLoop env nenv db l).2.2.count AnalyzerEvent.delayed
          = (analyzeLoop env nenv db l).2.1
  | [], _ => ⟨DelayedTrace.nil, rfl⟩
  | rep :: rest, db => by
    rw [analyzeLoop]
    by_cases hempty : (getDmarcRecordsByReportId db rep.id).isEmpty = true
    · simp only [hempty, if_true]
      have ih := analyzer_delay_follows_each_success env nenv rest
        (markReportProcessed db rep.id)
      refine ⟨DelayedTrace.skip rep.id ih.1, ?_⟩
      simpa [List.count_cons] using ih.2
    · simp only [hempty, Bool.false_eq_true, if_false]
      rcases hstep : analyzeReport env nenv rep (getDmarcRecordsByReportId db rep.id) db
        with ⟨db1, outcome⟩
      have ih := analyzer_delay_follows_each_success env nenv rest db1
      cases outcome with
      | ok u =>
        refine ⟨DelayedTrace.success rep.id ih.1, ?_⟩
        simpa [List.count_cons] using ih.2
      | error e =>
        refine ⟨DelayedTrace.fail rep.id ih.1, ?_⟩
        simpa [List.count_cons] using ih.2

/-- Counterexample to C3 as stated: on a concrete batch whose single (and
hence final) report is assessed successfully, the trace ends with a delay
event — the fixed delay *is* applied after the final report of the batch. -/
theorem analyzer_delay_after_final_report_counterexample :
    (analyzeUnprocessedReports envLowResponse stubNotifyEnv dbReportWithRecord).2
        = .ok (1, [AnalyzerEvent.analyzed 1, AnalyzerEvent.delayed])
    ∧ [AnalyzerEvent.analyzed 1, AnalyzerEvent.delayed].getLast?
        = some AnalyzerEvent.delayed := by
  constructor
  · rfl
  · rfl

/-! ## Lemmas about the parser's record loop -/

lemma insertRecordsForReport_reports (rid : Nat) :
    ∀ (l : List DmarcXmlRecord) (db : DB),
      ((insertRecordsForReport rid db l).1).reports = db.reports
  | [], _ => rfl
  | rec :: rest, db => by
    rw [insertRecordsForReport]
    cases hrow : rec.row with
    | none => exact insertRecordsForReport_reports rid rest db
    | some row =>
      cases hids : rec.identifiers with
      | none => rfl
      | some ids =>
        exact (insertRecordsForReport_reports rid rest _).trans rfl

lemma length_filterMap_of_isSome {α β : Type} (f : α → Option β) :
    ∀ l : List α, (∀ a ∈ l, (f a).isSome = true) → (l.filterMap f).length = l.length
  | [], _ => rfl
  | a :: l, h => by
    rcases Option.isSome_iff_exists.mp (h a (List.mem_cons_self a l)) with ⟨b, hb⟩
    rw [List.filterMap_cons, hb]
    simpa using length_filterMap_of_isSome f l
      (fun x hx => h x (List.mem_cons_of_mem a hx))

lemma insertRecordsForReport_spec (rid : Nat) :
    ∀ (l : List DmarcXmlRecord) (db : DB),
      (∀ rec ∈ l, rec.row.isSome = true → rec.identifiers.isSome = true) →
      ((insertRecordsForReport rid db l).2).isSome = true
      ∧ ((insertRecordsForReport rid db l).1).records.map
            (fun r => r.toDmarcRecordData)
          = db.records.map (fun r => r.toDmarcRecordData)
            ++ l.filterMap (detailOf rid)
  | [], db, _ => ⟨rfl, by rw [insertRecordsForReport]; simp⟩
  | rec :: rest, db, h => by
    rw [insertRecordsForReport]
    cases hrow : rec.row with
    | none =>
      have ih := insertRecordsForReport_spec rid rest db
        (fun r hr => h r (List.mem_cons_of_mem rec hr))
      have hskip : detailOf rid rec = none := by
        rw [detailOf, hrow]
      rw [List.filterMap_cons, hskip]
      exact ih
    | some row =>
      cases hids : rec.identifiers with
      | none =>
        have := h rec (List.mem_cons_self rec rest)
        rw [hrow, hids] at this
        simpa using this rfl
      | some ids =>
        have ih := insertRecordsForReport_spec rid rest
          (insertDmarcRecord db
            { report_id := rid
              source_ip := row.source_ip
              count := row.count
              disposition := row.policy_evaluated.disposition
              dkim := row.policy_evaluated.dkim
              spf := row.policy_evaluated.spf
              header_from := ids.header_from
              envelope_from := jsOrNull ids.envelope_from
              dkim_domain := (extractDkim rec.auth_results).1
              dkim_selector := (extractDkim rec.auth_results).2
              spf_domain := extractSpf rec.auth_results
              country := none }).1
          (fun r hr => h r (List.mem_cons_of_mem rec hr))
        have hkeep : detailOf rid rec
            = some { report_id := rid
                     source_ip := row.source_ip
                     count := row.count
                     disposition := row.policy_evaluated.disposition
                     dkim := row.policy_evaluated.dkim
                     spf := row.policy_evaluated.spf
                     header_from := ids.header_from
                     envelope_from := jsOrNull ids.envelope_from
                     dkim_domain := (extractDkim rec.auth_results).1
                     dkim_selector := (extractDkim rec.auth_results).2
                     spf_domain := extractSpf rec.auth_results
                     country := none } := by
          rw [detailOf, hrow, hids]
        constructor
        · simpa using ih.1
        · rw [List.filterMap_cons, hkeep]
          refine ih.2.trans ?_
          simp [insertDmarcRecord]

/-- C1: ingestion is idempotent on the external report identifier. When a
report with the document's external id already exists, parsing returns its
stored rowid and leaves the entire store unchanged; and starting from a
store without that id, parsing the document twice leaves exactly one stored
report with that id, the second parse returning the first parse's rowid
without modifying anything. -/
theorem parser_idempotent_on_report_id (doc : DmarcDoc) (xml : String) (db : DB)
    (fb : DmarcFeedback) (hfb : doc.feedback = some fb) :
    (∀ R, getDmarcReportByReportId db fb.report_metadata.report_id = some R →
        parseDmarcDoc doc xml db = (db, .ok (some R.id)))
    ∧ (countReportsWithReportId db fb.report_metadata.report_id = 0 →
        countReportsWithReportId (parseDmarcDoc doc xml db).1
            fb.report_metadata.report_id = 1
        ∧ parseDmarcDoc doc xml (parseDmarcDoc doc xml db).1
            = ((parseDmarcDoc doc xml db).1, .ok (some db.nextReportId))) := by
  constructor
  · intro R hR
    simp [parseDmarcDoc, hfb, hR]
  · intro h0
    have hnone : getDmarcReportByReportId db fb.report_metadata.report_id = none :=
      List.find?_eq_none.mpr (List.countP_eq_zero.mp h0)
    have hreports : (parseDmarcDoc doc xml db).1.reports
        = db.reports
          ++ [{ toDmarcReportData :=
                  { report_id := fb.report_metadata.report_id
                    org_name := fb.report_metadata.org_name
                    email := fb.report_metadata.email
                    date_begin := fb.report_metadata.date_begin
                    date_end := fb.report_metadata.date_end
                    domain := fb.policy_published.domain
                    policy_published := fb.policy_published
                    raw_xml := xml }
                id := db.nextReportId, processed := false }] := by
      simp only [parseDmarcDoc, hfb, hnone]
      exact (insertRecordsForReport_reports _ _ _).trans rfl
    constructor
    · rw [countReportsWithReportId, hreports]
      rw [List.countP_append]
      rw [countReportsWithReportId] at h0
      simp [h0, List.countP_cons]
    · have hfound : getDmarcReportByReportId (parseDmarcDoc doc xml db).1
          fb.report_metadata.report_id
          = some { toDmarcReportData :=
                     { report_id := fb.report_metadata.report_id
                       org_name := fb.report_metadata.org_name
                       email := fb.report_metadata.email
                       date_begin := fb.report_metadata.date_begin
                       date_end := fb.report_metadata.date_end
                       domain := fb.policy_published.domain
                       policy_published := fb.policy_published
                       raw_xml := xml }
                   id := db.nextReportId, processed := false } := by
        rw [getDmarcReportByReportId, hreports, List.find?_append]
        rw [getDmarcReportByReportId] at hnone
        simp [hnone, List.find?]
      set db1 := (parseDmarcDoc doc xml db).1 with hdb1
      simp [parseDmarcDoc, hfb, hfound]

/-- Witness for `parser_idempotent_on_report_id`: re-parsing a concrete
document against the store produced by its first parse returns rowid 1 and
changes nothing. -/
theorem parser_idempotent_on_report_id_witness :
    parseDmarcDoc docGood "<feedback/>" ((parseDmarcDoc docGood "<feedback/>" DB.empty).1)
      = ((parseDmarcDoc docGood "<feedback/>" DB.empty).1, .ok (some 1)) :=
  ((parser_idempotent_on_report_id docGood "<feedback/>" DB.empty
    ⟨metaR1, policy1, .one goodRecord⟩ rfl).2 rfl).2

/-- C4 (amended): for a new document all of whose detail blocks that carry a
`row` also carry `identifiers`, parsing succeeds and appends exactly the
row-bearing blocks' records, in the order encountered — a block without a
`row` is skipped without aborting the document — and when every block is
fully well-formed exactly N records are appended for N blocks. (A block with
a `row` but no `identifiers` instead aborts the document parse; see the
counterexample.) -/
theorem parser_detail_blocks_spec (doc : DmarcDoc) (xml : String) (db : DB)
    (fb : DmarcFeedback) (hfb : doc.feedback = some fb)
    (hnew : getDmarcReportByReportId db fb.report_metadata.report_id = none)
    (hids : ∀ rec ∈ fb.record.toList,
      rec.row.isSome = true → rec.identifiers.isSome = true) :
    (parseDmarcDoc doc xml db).2 = .ok (some db.nextReportId)
    ∧ (parseDmarcDoc doc xml db).1.records.map (fun r => r.toDmarcRecordData)
        = db.records.map (fun r => r.toDmarcRecordData)
          ++ fb.record.toList.filterMap (detailOf db.nextReportId)
    ∧ ((∀ rec ∈ fb.record.toList,
          rec.row.isSome = true ∧ rec.identifiers.isSome = true) →
        (parseDmarcDoc doc xml db).1.records.length
          = db.records.length + fb.record.toList.length) := by
  have hspec := insertRecordsForReport_spec
    (insertDmarcReport db
      { report_id := fb.report_metadata.report_id
        org_name := fb.report_metadata.org_name
        email := fb.report_metadata.email
        date_begin := fb.report_metadata.date_begin
        date_end := fb.report_metadata.date_end
        domain := fb.policy_published.domain
        policy_published := fb.policy_published
        raw_xml := xml }).2 fb.record.toList
    (insertDmarcReport db
      { report_id := fb.report_metadata.report_id
        org_name := fb.report_metadata.org_name
        email := fb.report_metadata.email
        date_begin := fb.report_metadata.date_begin
        date_end := fb.report_metadata.date_end
        domain := fb.policy_published.domain
        policy_published := fb.policy_published
        raw_xml := xml }).1 hids
  rcases Option.isSome_iff_exists.mp hspec.1 with ⟨c, hc⟩
  have houtcome : (parseDmarcDoc doc xml db).2 = .ok (some db.nextReportId) := by
    simp only [parseDmarcDoc, hfb, hnew]
    rw [hc]
    rfl
  have hmap : (parseDmarcDoc doc xml db).1.records.map (fun r => r.toDmarcRecordData)
      = db.records.map (fun r => r.toDmarcRecordData)
        ++ fb.record.toList.filterMap (detailOf db.nextReportId) := by
    simp only [parseDmarcDoc, hfb, hnew]
    exact hspec.2
  refine ⟨houtcome, hmap, fun hwf => ?_⟩
  have hlen := congrArg List.length hmap
  rw [List.length_map, List.length_append, List.length_map] at hlen
  rw [hlen]
  congr 1
  refine length_filterMap_of_isSome (detailOf db.nextReportId) fb.record.toList
    (fun rec hrec => ?_)
  rcases Option.isSome_iff_exists.mp (hwf rec hrec).1 with ⟨row, hrow⟩
  rcases Option.isSome_iff_exists.mp (hwf rec hrec).2 with ⟨ids, hi⟩
  rw [detailOf, hrow, hi]
  rfl

/-- Counterexample to C4 as stated: a detail block that has a `row` but no
`identifiers` sub-structure is not skipped — dereferencing
`rec.identifiers.header_from` throws, aborting the whole document parse
(and the already-inserted report row stays behind). -/
theorem parser_missing_identifiers_aborts_counterexample :
    (parseDmarcDoc docRowNoIds "<feedback/>" DB.empty).2
        = .error "TypeError: cannot read header_from of undefined"
    ∧ (parseDmarcDoc docRowNoIds "<feedback/>" DB.empty).1.records = []
    ∧ (parseDmarcDoc docRowNoIds "<feedback/>" DB.empty).1.reports.map
        (fun r => r.report_id) = ["R2"] :=
  ⟨rfl, rfl, rfl⟩

/-- Witness for `parser_detail_blocks_spec`: a concrete well-formed one-block
document stores exactly one record for the new report. -/
theorem parser_detail_blocks_spec_witness :
    (parseDmarcDoc docGood "<feedback/>" DB.empty).1.records.length = 1 := by
  have h := (parser_detail_blocks_spec docGood "<feedback/>" DB.empty
    ⟨metaR1, policy1, .one goodRecord⟩ rfl rfl
    (by intro rec hrec _; simp [OneOrMany.toList] at hrec; subst hrec; rfl)).2.2
    (by intro rec hrec; simp [OneOrMany.toList] at hrec; subst hrec; exact ⟨rfl, rfl⟩)
  simpa using h

/-- C9: when a detail block's auth-results section carries several entries
for DKIM and SPF, only the first entry of each mechanism determines the
stored record's `dkim_domain`/`dkim_selector`/`spf_domain` — the appended
row mentions only the head entries, whatever the later entries are. -/
theorem parser_keeps_first_auth_entry (doc : DmarcDoc) (xml : String) (db : DB)
    (fb : DmarcFeedback) (rec : DmarcXmlRecord) (row : DmarcXmlRow)
    (ids : DmarcXmlIdentifiers) (e : DkimAuthEntry) (tl : List DkimAuthEntry)
    (s : SpfAuthEntry) (stl : List SpfAuthEntry)
    (hfb : doc.feedback = some fb) (hrec : fb.record = .one rec)
    (hrow : rec.row = some row) (hids : rec.identifiers = some ids)
    (hauth : rec.auth_results = some ⟨some (.many e tl), some (.many s stl)⟩)
    (hnew : getDmarcReportByReportId db fb.report_metadata.report_id = none) :
    (parseDmarcDoc doc xml db).1.records.map (fun r => r.toDmarcRecordData)
      = db.records.map (fun r => r.toDmarcRecordData)
        ++ [{ report_id := db.nextReportId
              source_ip := row.source_ip
              count := row.count
              disposition := row.policy_evaluated.disposition
              dkim := row.policy_evaluated.dkim
              spf := row.policy_evaluated.spf
              header_from := ids.header_from
              envelope_from := jsOrNull ids.envelope_from
              dkim_domain := jsOrNull e.domain
              dkim_selector := jsOrNull e.selector
              spf_domain := jsOrNull s.domain
              country := none }] := by
  have hids' : ∀ r ∈ fb.record.toList, r.row.isSome = true → r.identifiers.isSome = true := by
    intro r hr _
    rw [hrec] at hr
    simp [OneOrMany.toList] at hr
    subst hr
    rw [hids]
    rfl
  have h := (parser_detail_blocks_spec doc xml db fb hfb hnew hids').2.1
  rw [h, hrec]
  simp only [OneOrMany.toList, List.filterMap_cons, List.filterMap_nil]
  rw [detailOf, hrow, hids]
  simp [extractDkim, extractSpf, hauth, OneOrMany.first]

/-- Witness for `parser_keeps_first_auth_entry`: on the concrete document
with two DKIM and two SPF entries, the stored record carries the first
entries' domain/selector only. -/
theorem parser_keeps_first_auth_entry_witness :
    (parseDmarcDoc docMultiAuth "<feedback/>" DB.empty).1.records.map
        (fun r => (r.dkim_domain, r.dkim_selector, r.spf_domain))
      = [(some "example.com", some "sel1", some "example.com")] := by
  have h := parser_keeps_first_auth_entry docMultiAuth "<feedback/>" DB.empty
    ⟨{ metaR1 with report_id := "R3" }, policy1, .one multiAuthRecord⟩
    multiAuthRecord
    { source_ip := "203.0.113.9", count := 7
      policy_evaluated := { disposition := "quarantine", dkim := "pass", spf := "pass" } }
    { header_from := "example.com", envelope_from := none }
    { domain := some "example.com", result := some "pass", selector := some "sel1" }
    [{ domain := some "other.example", result := some "fail", selector := some "sel2" }]
    { domain := some "example.com", result := some "pass" }
    [{ domain := some "spoof.example", result := some "fail" }]
    rfl rfl rfl rfl rfl rfl
  have h2 := congrArg (List.map (fun d : DmarcRecordData =>
    (d.dkim_domain, d.dkim_selector, d.spf_domain))) h
  simpa [jsOrNull] using h2

/-- C5 (bug evidence): a message whose single attachment is a zip falling
back to a non-report entry — content that the XML library decodes but that
has no `feedback` element — is nevertheless counted as processed:
`parseDmarcXml` returns `null` without throwing, `processedCount` is
incremented anyway, the message is flagged for deletion, and a SUCCESS
outcome is logged although no report row was stored. -/
theorem fetcher_counts_invalid_document_as_success :
    parseDmarcXml fetcherEnvNoFeedback.decode "<foo></foo>" DB.empty
        = (DB.empty, .ok none)
    ∧ (processEmail fetcherEnvNoFeedback 7 mailZipNoFeedback DB.empty).2 = true
    ∧ (processEmail fetcherEnvNoFeedback 7 mailZipNoFeedback DB.empty).1.reports = []
    ∧ (processEmail fetcherEnvNoFeedback 7 mailZipNoFeedback DB.empty).1.logs.map
        (fun l => (l.status, l.attachment_count))
        = [("SUCCESS", 1)] :=
  ⟨rfl, rfl, rfl, rfl⟩
